import Mathlib

/-!
Verification development for the `netstats` network-performance engine.

The Rust sources are shallowly embedded:
* machine integers (`u32`, `u64`, `u128`, `usize`) become `Nat`; wrapping is
  made explicit with `% 2 ^ w` at the places where the source can overflow;
* byte buffers become `List Nat` (each entry is one byte value);
* `std::time::Instant` values become `Nat` tick counts passed explicitly as a
  `now` argument wherever the source calls `Instant::now()`;
* fallible operations return `Option` / `Except`.

Source files embedded here:
* `netstats_core/src/packet.rs`   (packet codec, bincode wire format)
* `netstats_core/src/config.rs`   (test configuration)
* `netstats_core/src/metrics.rs`  (metrics aggregator)
* `netstats_core/src/anomalies.rs` (anomaly events)
* `netstats_core/src/network.rs`  (UDP/TCP receive and send loops)
-/

namespace Netstats

/-! ## Byte-level helpers

`natToLE k n` is the `k`-byte little-endian encoding of `n` (bincode's fixint
encoding for `u32`/`u64`); `natFromLE` reads it back.  `natFromBE` reads a
big-endian byte list (`u32::from_be_bytes` on the TCP length prefix), and
`natToBE` produces one (`u32::to_be_bytes`).  `takeExact n l` models reading
exactly `n` bytes from a buffer, failing when fewer are available. -/

def natToLE : Nat → Nat → List Nat
  | 0, _ => []
  | k + 1, n => n % 256 :: natToLE k (n / 256)

def natFromLE : List Nat → Nat
  | [] => 0
  | b :: rest => b + 256 * natFromLE rest

def natFromBE (l : List Nat) : Nat :=
  l.foldl (fun acc b => acc * 256 + b) 0

def natToBE (k n : Nat) : List Nat :=
  (natToLE k n).reverse

def takeExact (n : Nat) (l : List Nat) : Option (List Nat × List Nat) :=
  if n ≤ l.length then some (l.take n, l.drop n) else none

theorem natToLE_length (k n : Nat) : (natToLE k n).length = k := by
  induction k generalizing n with
  | zero => rfl
  | succ k ih => simp [natToLE, ih]

theorem natFromLE_natToLE (k n : Nat) (h : n < 256 ^ k) :
    natFromLE (natToLE k n) = n := by
  induction k generalizing n with
  | zero =>
    simp [natToLE, natFromLE]
    omega
  | succ k ih =>
    have hdiv : n / 256 < 256 ^ k := by
      rw [Nat.div_lt_iff_lt_mul (by norm_num)]
      calc n < 256 ^ (k + 1) := h
        _ = 256 ^ k * 256 := by ring
    simp [natToLE, natFromLE, ih _ hdiv]
    omega

theorem natFromBE_reverse (l : List Nat) :
    natFromBE l.reverse = natFromLE l := by
  induction l with
  | nil => rfl
  | cons b rest ih =>
    simp only [List.reverse_cons, natFromBE, List.foldl_append, List.foldl_cons,
      List.foldl_nil, natFromLE]
    simp only [natFromBE] at ih
    omega

theorem natFromBE_natToBE (k n : Nat) (h : n < 256 ^ k) :
    natFromBE (natToBE k n) = n := by
  rw [natToBE, natFromBE_reverse, natFromLE_natToLE k n h]

theorem natToBE_length (k n : Nat) : (natToBE k n).length = k := by
  simp [natToBE, natToLE_length]

theorem takeExact_append (n : Nat) (a b : List Nat) (h : a.length = n) :
    takeExact n (a ++ b) = some (a, b) := by
  subst h
  simp [takeExact, List.take_left, List.drop_left]

theorem takeExact_eq_some (n : Nat) (l a r : List Nat)
    (h : takeExact n l = some (a, r)) :
    n ≤ l.length ∧ r.length = l.length - n := by
  by_cases hn : n ≤ l.length
  · simp only [takeExact, if_pos hn, Option.some.injEq, Prod.mk.injEq] at h
    refine ⟨hn, ?_⟩
    rw [← h.2]
    simp
  · simp [takeExact, if_neg hn] at h

/-! ## Packet codec (`netstats_core/src/packet.rs`)

`CustomPacket` is serialized with bincode 1.x's legacy configuration:
fixed-width little-endian integers, enum variants tagged by their `u32`
index, `Vec<u8>` written as a `u64` length followed by the raw bytes, and
trailing bytes tolerated by `deserialize`.  The wire layout of a packet is
therefore `seq (4 LE) ++ timestamp (8 LE) ++ variant index (4 LE) ++
payload length (8 LE) ++ payload`. -/

/-- `PacketType` from packet.rs, variants in declaration order (the order
fixes the bincode variant indices). -/
inductive PacketType where
  | Data
  | Ack
  | Control
  | EchoRequest
  | EchoReply
  deriving DecidableEq, Repr

/-- The bincode `u32` tag of each `PacketType` variant. -/
def PacketType.index : PacketType → Nat
  | .Data => 0
  | .Ack => 1
  | .Control => 2
  | .EchoRequest => 3
  | .EchoReply => 4

/-- Inverse of `PacketType.index`; an unrecognized tag is a `DecodeError`. -/
def PacketType.ofIndex : Nat → Option PacketType
  | 0 => some .Data
  | 1 => some .Ack
  | 2 => some .Control
  | 3 => some .EchoRequest
  | 4 => some .EchoReply
  | _ => none

theorem PacketType.ofIndex_index (t : PacketType) :
    PacketType.ofIndex t.index = some t := by
  cases t <;> rfl

/-- `PacketHeader` from packet.rs: `sequence_number: u32`,
`timestamp_ms: u64`, `packet_type: PacketType`. -/
structure PacketHeader where
  sequence_number : Nat
  timestamp_ms : Nat
  packet_type : PacketType
  deriving DecidableEq, Repr

/-- `CustomPacket` from packet.rs: a header followed by an opaque payload. -/
structure CustomPacket where
  header : PacketHeader
  payload : List Nat
  deriving DecidableEq, Repr

/-- A packet whose fields fit their Rust machine-integer types and whose
payload entries are bytes. -/
def CustomPacket.WellFormed (p : CustomPacket) : Prop :=
  p.header.sequence_number < 2 ^ 32 ∧
  p.header.timestamp_ms < 2 ^ 64 ∧
  p.payload.length < 2 ^ 64 ∧
  ∀ b ∈ p.payload, b < 256

/-- `CustomPacket::new_echo_reply` (packet.rs lines 69-78): keeps the
request's sequence number and timestamp, echoes the payload, and sets the
packet type to `EchoReply`. -/
def CustomPacket.new_echo_reply (request_packet : CustomPacket) : CustomPacket :=
  { header :=
      { sequence_number := request_packet.header.sequence_number
        timestamp_ms := request_packet.header.timestamp_ms
        packet_type := PacketType.EchoReply }
    payload := request_packet.payload }

/-- `CustomPacket::to_bytes` = `bincode::serialize` under the legacy fixint
little-endian configuration. -/
def CustomPacket.to_bytes (p : CustomPacket) : List Nat :=
  natToLE 4 p.header.sequence_number ++
  natToLE 8 p.header.timestamp_ms ++
  natToLE 4 p.header.packet_type.index ++
  natToLE 8 p.payload.length ++
  p.payload

/-- `CustomPacket::from_bytes` = `bincode::deserialize`: reads the header
fields and the length-prefixed payload in order; fails when the input is
shorter than required or the variant tag is unrecognized; trailing bytes are
allowed (bincode's legacy `deserialize` does not reject them). -/
def CustomPacket.from_bytes (bytes : List Nat) : Option CustomPacket :=
  match takeExact 4 bytes with
  | none => none
  | some (seqB, r1) =>
    match takeExact 8 r1 with
    | none => none
    | some (tsB, r2) =>
      match takeExact 4 r2 with
      | none => none
      | some (tagB, r3) =>
        match PacketType.ofIndex (natFromLE tagB) with
        | none => none
        | some pt =>
          match takeExact 8 r3 with
          | none => none
          | some (lenB, r4) =>
            match takeExact (natFromLE lenB) r4 with
            | none => none
            | some (payload, _rest) =>
              some { header :=
                       { sequence_number := natFromLE seqB
                         timestamp_ms := natFromLE tsB
                         packet_type := pt }
                     payload := payload }

/-! ## Anomalies (`netstats_core/src/anomalies.rs`) -/

/-- `AnomalyType` from anomalies.rs. -/
inductive AnomalyType where
  | PacketLoss
  | OutOfOrder
  | DuplicatePacket
  | HighLatencySpike
  | JitterSpike
  | SynTimeout
  | ConnectionReset
  | ExcessiveRetransmissions
  deriving DecidableEq, Repr

/-- `AnomalyEvent` from anomalies.rs.  The human-readable `description`
string is a `format!` of one numeric quantity (the RTT or jitter value in
microseconds, or the out-of-order sequence number); `desc_value` records
that quantity instead of the rendered text. -/
structure AnomalyEvent where
  timestamp_ms : Nat
  anomaly_type : AnomalyType
  desc_value : Nat
  deriving DecidableEq, Repr

/-! ## Configuration (`netstats_core/src/config.rs`) -/

/-- `Protocol` from config.rs. -/
inductive Protocol where
  | Tcp
  | Udp
  deriving DecidableEq, Repr

/-- `TcpBidirectionalMode` from config.rs. -/
inductive TcpBidirectionalMode where
  | DualStream
  | SingleStream
  deriving DecidableEq, Repr

/-- `TestMode` from config.rs. -/
inductive TestMode where
  | Client
  | Server
  | Bidirectional
  deriving DecidableEq, Repr

/-- `TestConfig` from config.rs. -/
structure TestConfig where
  target_ip : String
  target_port : Nat
  test_duration_secs : Nat
  tick_rate_hz : Nat
  packet_size_bytes : Nat
  packet_size_range : Option (Nat × Nat)
  protocol : Protocol
  test_mode : TestMode
  tcp_bidirectional_mode : Option TcpBidirectionalMode
  latency_spike_threshold_ms : Option Nat
  jitter_spike_threshold_ms : Option Nat
  packet_loss_threshold_percent : Option ℚ
  deriving DecidableEq, Repr

/-- The `Default` impl for `TestConfig` in config.rs. -/
def TestConfig.default : TestConfig :=
  { target_ip := "127.0.0.1"
    target_port := 5001
    test_duration_secs := 10
    tick_rate_hz := 20
    packet_size_bytes := 1024
    packet_size_range := none
    protocol := Protocol.Udp
    test_mode := TestMode.Client
    tcp_bidirectional_mode := some TcpBidirectionalMode.DualStream
    latency_spike_threshold_ms := some 200
    jitter_spike_threshold_ms := some 50
    packet_loss_threshold_percent := some 5 }

/-- `TestConfig::tick_interval` = `Duration::from_secs_f64(1.0 / hz)`,
expressed in milliseconds as the exact rational `1000 / hz`. -/
def TestConfig.tick_interval_ms (cfg : TestConfig) : ℚ :=
  1000 / (cfg.tick_rate_hz : ℚ)

/-! ## Metrics aggregator (`netstats_core/src/metrics.rs`)

`TestMetrics` mirrors the Rust struct field by field.  `Instant` values are
`Nat` tick counts; every operation that calls `Instant::now()` in the source
takes an extra `now` argument.  The `u64`/`u128` counters are modeled as
unbounded `Nat`: no claim depends on counter wrap-around, which is
unreachable for these fields in any physical run. -/

structure TestMetrics where
  packets_sent : Nat
  packets_received : Nat
  bytes_sent : Nat
  bytes_received : Nat
  total_rtt_micros : Nat
  rtt_count : Nat
  min_rtt_micros : Option Nat
  max_rtt_micros : Option Nat
  inter_arrival_jitter_micros_sum : Nat
  jitter_count : Nat
  bandwidth_samples : List (Nat × Nat)
  last_bandwidth_sample_time_ms : Option Nat
  bytes_since_last_bandwidth_sample : Nat
  test_start_time : Option Nat
  last_rtt_micros : Option Nat
  anomalies : List AnomalyEvent
  latency_spike_threshold_micros : Option Nat
  jitter_spike_threshold_micros : Option Nat
  out_of_order_count : Nat
  deriving DecidableEq, Repr

/-- `TestMetrics::new()` = `Default::default()`. -/
def TestMetrics.new : TestMetrics :=
  { packets_sent := 0
    packets_received := 0
    bytes_sent := 0
    bytes_received := 0
    total_rtt_micros := 0
    rtt_count := 0
    min_rtt_micros := none
    max_rtt_micros := none
    inter_arrival_jitter_micros_sum := 0
    jitter_count := 0
    bandwidth_samples := []
    last_bandwidth_sample_time_ms := none
    bytes_since_last_bandwidth_sample := 0
    test_start_time := none
    last_rtt_micros := none
    anomalies := []
    latency_spike_threshold_micros := none
    jitter_spike_threshold_micros := none
    out_of_order_count := 0 }

/-- `TestMetrics::configure_anomaly_detection`: copies the millisecond
thresholds from the config, converted to microseconds. -/
def TestMetrics.configure_anomaly_detection (m : TestMetrics) (cfg : TestConfig) :
    TestMetrics :=
  { m with
    latency_spike_threshold_micros := cfg.latency_spike_threshold_ms.map (· * 1000)
    jitter_spike_threshold_micros := cfg.jitter_spike_threshold_ms.map (· * 1000) }

/-- `TestMetrics::init_start_time` (metrics.rs lines 54-60): idempotent;
on the first call records the start instant, sets the last bandwidth sample
time to 0 and zeroes the partial accumulator. -/
def TestMetrics.init_start_time (m : TestMetrics) (now : Nat) : TestMetrics :=
  if m.test_start_time.isNone then
    { m with
      test_start_time := some now
      last_bandwidth_sample_time_ms := some 0
      bytes_since_last_bandwidth_sample := 0 }
  else m

/-- `TestMetrics::record_packet_sent` (metrics.rs lines 62-66). -/
def TestMetrics.record_packet_sent (m : TestMetrics) (size_bytes now : Nat) :
    TestMetrics :=
  let m := m.init_start_time now
  { m with
    packets_sent := m.packets_sent + 1
    bytes_sent := m.bytes_sent + size_bytes }

/-- `TestMetrics::record_jitter_value` (metrics.rs lines 139-158): adds the
sample to the jitter sum, and appends a `JitterSpike` anomaly when a
configured threshold is exceeded. -/
def TestMetrics.record_jitter_value (m : TestMetrics)
    (jitter_sample_micros now : Nat) : TestMetrics :=
  let m := m.init_start_time now
  let m := { m with
    inter_arrival_jitter_micros_sum :=
      m.inter_arrival_jitter_micros_sum + jitter_sample_micros
    jitter_count := m.jitter_count + 1 }
  match m.jitter_spike_threshold_micros with
  | some threshold =>
    if jitter_sample_micros > threshold then
      { m with
        anomalies := m.anomalies ++
          [{ timestamp_ms := m.test_start_time.elim 0 (fun st => now - st)
             anomaly_type := AnomalyType.JitterSpike
             desc_value := jitter_sample_micros }] }
    else m
  | none => m

/-- `TestMetrics::record_packet_received` (metrics.rs lines 68-118):
increments the receive counters and the bandwidth accumulator; when
`rtt_micros > 0` it additionally updates the RTT sum/count/min/max, feeds
`|rtt − last_rtt|` through `record_jitter_value` when a previous sample
exists, updates `last_rtt`, and appends a `HighLatencySpike` anomaly when
the latency threshold is exceeded. -/
def TestMetrics.record_packet_received (m : TestMetrics)
    (size_bytes rtt_micros now : Nat) : TestMetrics :=
  let m := m.init_start_time now
  let m := { m with
    packets_received := m.packets_received + 1
    bytes_received := m.bytes_received + size_bytes
    bytes_since_last_bandwidth_sample :=
      m.bytes_since_last_bandwidth_sample + size_bytes }
  if rtt_micros > 0 then
    let m := { m with
      total_rtt_micros := m.total_rtt_micros + rtt_micros
      rtt_count := m.rtt_count + 1
      min_rtt_micros := some (m.min_rtt_micros.elim rtt_micros (min · rtt_micros))
      max_rtt_micros := some (m.max_rtt_micros.elim rtt_micros (max · rtt_micros)) }
    let m :=
      match m.last_rtt_micros with
      | some last_rtt =>
        m.record_jitter_value
          (if rtt_micros ≥ last_rtt then rtt_micros - last_rtt
           else last_rtt - rtt_micros) now
      | none => m
    let m := { m with last_rtt_micros := some rtt_micros }
    match m.latency_spike_threshold_micros with
    | some threshold =>
      if rtt_micros > threshold then
        { m with
          anomalies := m.anomalies ++
            [{ timestamp_ms := m.test_start_time.elim 0 (fun st => now - st)
               anomaly_type := AnomalyType.HighLatencySpike
               desc_value := rtt_micros }] }
      else m
    | none => m
  else m

/-- `TestMetrics::take_bandwidth_sample` (metrics.rs lines 122-137): appends
`(elapsed_ms, partial accumulator)` when the accumulator is positive or time
has advanced past the last sample; always resets the accumulator and sets
the last sample time to `elapsed_ms`. -/
def TestMetrics.take_bandwidth_sample (m : TestMetrics)
    (current_test_time_ms now : Nat) : TestMetrics :=
  let m := if m.test_start_time.isNone then m.init_start_time now else m
  let last_sample_time := m.last_bandwidth_sample_time_ms.getD 0
  let m :=
    if m.bytes_since_last_bandwidth_sample > 0 ∨
        current_test_time_ms > last_sample_time then
      { m with
        bandwidth_samples := m.bandwidth_samples ++
          [(current_test_time_ms, m.bytes_since_last_bandwidth_sample)] }
    else m
  { m with
    bytes_since_last_bandwidth_sample := 0
    last_bandwidth_sample_time_ms := some current_test_time_ms }

/-- `TestMetrics::average_rtt_micros` (metrics.rs lines 161-167), with the
`f64` quotient taken in exact rational arithmetic. -/
def TestMetrics.average_rtt_micros (m : TestMetrics) : Option ℚ :=
  if m.rtt_count = 0 then none
  else some ((m.total_rtt_micros : ℚ) / (m.rtt_count : ℚ))

/-- `TestMetrics::packet_loss_percentage` (metrics.rs lines 169-176), with
the `f64` arithmetic taken in exact rational arithmetic;
`saturating_sub` is `Nat` truncated subtraction. -/
def TestMetrics.packet_loss_percentage (m : TestMetrics) : ℚ :=
  if m.packets_sent = 0 then 0
  else ((m.packets_sent - m.packets_received : Nat) : ℚ)
         / (m.packets_sent : ℚ) * 100

/-- `TestMetrics::average_jitter_micros` (metrics.rs lines 178-184). -/
def TestMetrics.average_jitter_micros (m : TestMetrics) : Option ℚ :=
  if m.jitter_count = 0 then none
  else some ((m.inter_arrival_jitter_micros_sum : ℚ) / (m.jitter_count : ℚ))

/-- `TestMetrics::overall_throughput_bps` (metrics.rs lines 187-193). -/
def TestMetrics.overall_throughput_bps (m : TestMetrics)
    (duration_secs : ℚ) : ℚ :=
  if duration_secs ≤ 0 then 0
  else ((m.bytes_received * 8 : Nat) : ℚ) / duration_secs

/-- One mutating call on the shared metrics aggregator, used to quantify
over every sequence of operations a run can perform.  Each constructor
carries the `now` instant at which the source would read `Instant::now()`. -/
inductive MetricsOp where
  | sent (size_bytes now : Nat)
  | received (size_bytes rtt_micros now : Nat)
  | jitterValue (sample_micros now : Nat)
  | bandwidthSample (current_test_time_ms now : Nat)
  deriving DecidableEq, Repr

/-- Apply one `MetricsOp`. -/
def MetricsOp.apply (m : TestMetrics) : MetricsOp → TestMetrics
  | .sent size now => m.record_packet_sent size now
  | .received size rtt now => m.record_packet_received size rtt now
  | .jitterValue v now => m.record_jitter_value v now
  | .bandwidthSample t now => m.take_bandwidth_sample t now

/-- Apply a sequence of metrics operations in order. -/
def applyOps (m : TestMetrics) (ops : List MetricsOp) : TestMetrics :=
  ops.foldl MetricsOp.apply m

/-! ## Network engine (`netstats_core/src/network.rs`) -/

/-- `NetworkError` from network.rs (payload strings abstracted away). -/
inductive NetworkError where
  | ioError
  | serializationError
  | handshakeError
  | timeout
  | other
  | invalidAddress
  | unsupportedMode
  deriving DecidableEq, Repr

/-- `u32::MAX`. -/
def u32Max : Nat := 2 ^ 32 - 1

/-- The wrap-around heuristic of the UDP receive loop (network.rs line 424):
`current_seq < (u32::MAX / 4) && highest_seen > (u32::MAX * 3 / 4)`.
`u32::MAX * 3` overflows `u32`; the overflow is embedded explicitly as
`% 2 ^ 32`, giving `(2 ^ 32 - 3) / 4 = 1073741823` for the second
threshold. -/
def isLikelyWrap (current_seq highest_seen : Nat) : Prop :=
  current_seq < u32Max / 4 ∧ highest_seen > u32Max * 3 % 2 ^ 32 / 4

instance (c h : Nat) : Decidable (isLikelyWrap c h) := by
  unfold isLikelyWrap; infer_instance

/-- One handling of a successfully decoded datagram in `udp_receive_loop`
(network.rs lines 409-456): record the receipt with RTT 0, detect and record
an out-of-order arrival (incrementing `out_of_order_count` and appending an
`OutOfOrder` anomaly), update the highest sequence number seen to the
maximum, and build the echo reply for an `EchoRequest`.  Returns the updated
metrics, the updated highest-seen value, and the reply datagram (if any)
that is sent back to the source address. -/
def udpReceiveStep (m : TestMetrics) (now len : Nat)
    (highest_udp_seq_received : Option Nat) (packet : CustomPacket) :
    TestMetrics × Option Nat × Option CustomPacket :=
  let current_seq := packet.header.sequence_number
  let m := m.record_packet_received len 0 now
  let m :=
    match highest_udp_seq_received with
    | some highest_seen =>
      if current_seq < highest_seen ∧ ¬ isLikelyWrap current_seq highest_seen then
        { m with
          out_of_order_count := m.out_of_order_count + 1
          anomalies := m.anomalies ++
            [{ timestamp_ms := m.test_start_time.elim 0 (fun st => now - st)
               anomaly_type := AnomalyType.OutOfOrder
               desc_value := current_seq }] }
      else m
    | none => m
  let highest :=
    some (highest_udp_seq_received.elim current_seq (fun h => max h current_seq))
  let reply :=
    if packet.header.packet_type = PacketType.EchoRequest then
      some (CustomPacket.new_echo_reply packet)
    else none
  (m, highest, reply)

/-- The bound passed to `tokio::time::timeout` around `socket.recv` in
`udp_send_loop` (network.rs line 342): a constant 200 milliseconds,
independent of the configuration. -/
def udpEchoWaitTimeoutMs (_cfg : TestConfig) : Nat := 200

/-- How long the primary UDP sender waits for the echo reply: until the
reply datagram arrives (`reply_after_ms`), capped by the timeout —
`tokio::time::timeout`'s semantics. -/
def udpEchoWaitMs (cfg : TestConfig) (reply_after_ms : Option Nat) : Nat :=
  match reply_after_ms with
  | some t => min t (udpEchoWaitTimeoutMs cfg)
  | none => udpEchoWaitTimeoutMs cfg

/-- The 10 MiB frame-length limit of `tcp_receive_loop`
(network.rs line 646). -/
def tcpMaxFrameLen : Nat := 10 * 1024 * 1024

/-- The initial capacity of the TCP receive buffer (network.rs line 618):
`Vec::with_capacity(config.packet_size_bytes.max(1024) * 2)`.  `Vec`
guarantees at least the requested capacity; the model uses the guaranteed
minimum. -/
def tcpInitialCapacity (cfg : TestConfig) : Nat :=
  max cfg.packet_size_bytes 1024 * 2

/-- The framed read path of `tcp_receive_loop` (network.rs lines 636-697)
over a byte stream, the stream's end modeling EOF.  State: `cap` is the
receive buffer's capacity, `bufLen` its length (`packet_buffer.len()`).
Per frame: read the 4-byte big-endian length prefix (`UnexpectedEof` here
breaks out of the loop with `Ok`); a zero length `continue`s; a length
exceeding the capacity is grown via `reserve` unless it exceeds 10 MiB, in
which case the loop returns a serialization error; then the body is read
(`UnexpectedEof` here also breaks with `Ok`) and, when it parses as a
`CustomPacket`, recorded as `record_packet_received(len + 4, 0)`.  The
time-driven bandwidth-sampler and shutdown arms of the `select!` are not
modeled; `now` stands for the monotonic instants read inside the loop. -/
def tcpReceiveLoopFuel (now : Nat) :
    Nat → Nat → Nat → List Nat → TestMetrics → Except NetworkError TestMetrics
  | 0, _, _, _, m => Except.ok m
  | fuel + 1, cap, bufLen, stream, m =>
    match takeExact 4 stream with
    | none => Except.ok m
    | some (lenB, rest) =>
      let packet_len := natFromBE lenB
      if packet_len = 0 then
        tcpReceiveLoopFuel now fuel cap bufLen rest m
      else
        match (if packet_len > cap then
                 (if packet_len > tcpMaxFrameLen then none
                  else some (max cap (bufLen + packet_len)))
               else some cap : Option Nat) with
        | none => Except.error NetworkError.serializationError
        | some cap2 =>
          match takeExact packet_len rest with
          | none => Except.ok m
          | some (body, rest2) =>
            let m2 :=
              match CustomPacket.from_bytes body with
              | some _packet => m.record_packet_received (packet_len + 4) 0 now
              | none => m
            tcpReceiveLoopFuel now fuel cap2 (max bufLen packet_len) rest2 m2

/-- The framed read path of `tcp_receive_loop` on a finite byte stream.
Every iteration consumes at least the four prefix bytes, so
`stream.length` units of fuel can never run out before the stream does. -/
def tcpReceiveLoop (now cap bufLen : Nat) (stream : List Nat)
    (m : TestMetrics) : Except NetworkError TestMetrics :=
  tcpReceiveLoopFuel now stream.length cap bufLen stream m

/-! ## Supporting lemmas -/

theorem takeExact_length_self (l : List Nat) :
    takeExact l.length l = some (l, []) := by
  simp [takeExact]

/-! ## Claim theorems -/

/-- C1: for every request packet `p`, the echo reply constructed from `p` by
`new_echo_reply` has the same sequence number, the same wire send-timestamp
and the same payload as `p`, and its kind is `EchoReply`. -/
theorem c1_new_echo_reply_preserves_request (p : CustomPacket) :
    (CustomPacket.new_echo_reply p).header.sequence_number =
        p.header.sequence_number ∧
    (CustomPacket.new_echo_reply p).header.timestamp_ms =
        p.header.timestamp_ms ∧
    (CustomPacket.new_echo_reply p).payload = p.payload ∧
    (CustomPacket.new_echo_reply p).header.packet_type = PacketType.EchoReply :=
  ⟨rfl, rfl, rfl, rfl⟩

/-- C2: for every well-formed packet `p` (any header with a recognized kind,
any payload), decoding the bytes produced by encoding `p` yields exactly
`p`. -/
theorem c2_decode_encode_roundtrip (p : CustomPacket) (h : p.WellFormed) :
    CustomPacket.from_bytes (CustomPacket.to_bytes p) = some p := by
  obtain ⟨⟨seq, ts, pt⟩, payload⟩ := p
  obtain ⟨h1, h2, h3, -⟩ := h
  dsimp only at h1 h2 h3
  have p32 : (256 : Nat) ^ 4 = 2 ^ 32 := by norm_num
  have p64 : (256 : Nat) ^ 8 = 2 ^ 64 := by norm_num
  have e1 : seq < 256 ^ 4 := by omega
  have e2 : ts < 256 ^ 8 := by omega
  have e3 : pt.index < 256 ^ 4 := by cases pt <;> simp [PacketType.index]
  have e4 : payload.length < 256 ^ 8 := by omega
  simp only [CustomPacket.to_bytes, CustomPacket.from_bytes, List.append_assoc,
    takeExact_append _ _ _ (natToLE_length 4 seq),
    takeExact_append _ _ _ (natToLE_length 8 ts),
    takeExact_append _ _ _ (natToLE_length 4 pt.index),
    takeExact_append _ _ _ (natToLE_length 8 payload.length),
    natFromLE_natToLE _ _ e1, natFromLE_natToLE _ _ e2,
    natFromLE_natToLE _ _ e3, natFromLE_natToLE _ _ e4,
    PacketType.ofIndex_index, takeExact_length_self]

/-- Witness for C2 at the concrete packet
`{ seq := 5, ts := 123, kind := EchoRequest, payload := [7, 8] }`. -/
theorem c2_decode_encode_roundtrip_witness :
    CustomPacket.WellFormed
      ⟨⟨5, 123, PacketType.EchoRequest⟩, [7, 8]⟩ ∧
    CustomPacket.from_bytes
        (CustomPacket.to_bytes ⟨⟨5, 123, PacketType.EchoRequest⟩, [7, 8]⟩) =
      some ⟨⟨5, 123, PacketType.EchoRequest⟩, [7, 8]⟩ :=
  ⟨by simp only [CustomPacket.WellFormed]; decide,
   c2_decode_encode_roundtrip _ (by simp only [CustomPacket.WellFormed]; decide)⟩

/-- Casting `Nat` truncated subtraction to `ℚ` gives the clamped
difference. -/
theorem cast_nat_sub_eq_max (a b : Nat) :
    ((a - b : Nat) : ℚ) = max 0 ((a : ℚ) - (b : ℚ)) := by
  rcases Nat.le_total a b with hle | hle
  · rw [Nat.sub_eq_zero_of_le hle, max_eq_left (sub_nonpos.mpr (by exact_mod_cast hle))]
    simp
  · rw [Nat.cast_sub hle, max_eq_right (sub_nonneg.mpr (by exact_mod_cast hle))]

/-- C8: `packet_loss_percentage()` equals
`100 · max(0, packets_sent − packets_received) / packets_sent`, and equals 0
when `packets_sent = 0` (in exact rational arithmetic the quotient by zero
is zero, so the formula degenerates correctly as well). -/
theorem c8_packet_loss_percentage (m : TestMetrics) :
    m.packet_loss_percentage =
      100 * max 0 ((m.packets_sent : ℚ) - (m.packets_received : ℚ)) /
        (m.packets_sent : ℚ) ∧
    (m.packets_sent = 0 → m.packet_loss_percentage = 0) := by
  constructor
  · unfold TestMetrics.packet_loss_percentage
    by_cases h : m.packets_sent = 0
    · simp [h]
    · rw [if_neg h, cast_nat_sub_eq_max]
      ring
  · intro h
    simp [TestMetrics.packet_loss_percentage, h]

/-- C5 counterexample: from the empty metrics state,
`take_bandwidth_sample(0)` appends nothing (the accumulator is zero and time
has not advanced past the last sample), while the claim requires the pair
`(0, 0)` to be appended unconditionally. -/
theorem c5_take_bandwidth_sample_counterexample :
    (TestMetrics.new.take_bandwidth_sample 0 0).bandwidth_samples = [] ∧
    TestMetrics.new.bandwidth_samples ++
        [(0, TestMetrics.new.bytes_since_last_bandwidth_sample)] ≠
      ([] : List (Nat × Nat)) := by
  exact ⟨rfl, by simp [TestMetrics.new]⟩

/-- C5 (amended): `take_bandwidth_sample(elapsed_ms)` appends
`(elapsed_ms, partial accumulator)` exactly when the accumulator is positive
or `elapsed_ms` exceeds the last-sample timestamp (both read after the
initialization that a missing start instant triggers, which zeroes them);
it always resets the accumulator to zero and sets the last-sample timestamp
to `elapsed_ms`. -/
theorem c5_take_bandwidth_sample_amended (m : TestMetrics)
    (elapsed_ms now : Nat) :
    (m.take_bandwidth_sample elapsed_ms now).bandwidth_samples =
      (if (if m.test_start_time.isSome
           then m.bytes_since_last_bandwidth_sample else 0) > 0 ∨
          elapsed_ms > (if m.test_start_time.isSome
                        then m.last_bandwidth_sample_time_ms.getD 0 else 0) then
        m.bandwidth_samples ++
          [(elapsed_ms,
            if m.test_start_time.isSome
            then m.bytes_since_last_bandwidth_sample else 0)]
      else m.bandwidth_samples) ∧
    (m.take_bandwidth_sample elapsed_ms now).bytes_since_last_bandwidth_sample
      = 0 ∧
    (m.take_bandwidth_sample elapsed_ms now).last_bandwidth_sample_time_ms =
      some elapsed_ms := by
  rcases h : m.test_start_time with _ | st <;>
    simp [TestMetrics.take_bandwidth_sample, TestMetrics.init_start_time, h] <;>
    split <;> rfl

/-- C7 counterexample: with the default configuration (tick rate 20 Hz, so
a 50 ms pacing interval) the echo-reply wait is capped at the constant
200 ms, which is not bounded by `min(200 ms, pacing interval) = 50 ms`. -/
theorem c7_echo_wait_counterexample :
    udpEchoWaitMs TestConfig.default none = 200 ∧
    TestConfig.default.tick_interval_ms = 50 ∧
    ¬((udpEchoWaitMs TestConfig.default none : ℚ) ≤
        min 200 TestConfig.default.tick_interval_ms) := by
  refine ⟨rfl, ?_, ?_⟩ <;>
    norm_num [TestConfig.tick_interval_ms, TestConfig.default, udpEchoWaitMs,
      udpEchoWaitTimeoutMs]

/-- C7 (amended): the echo-reply wait of the primary UDP sender is bounded
by the fixed 200 ms timeout, independent of the configured pacing
interval. -/
theorem c7_echo_wait_amended (cfg : TestConfig)
    (reply_after_ms : Option Nat) :
    udpEchoWaitTimeoutMs cfg = 200 ∧
    udpEchoWaitMs cfg reply_after_ms ≤ 200 := by
  cases reply_after_ms <;>
    simp [udpEchoWaitMs, udpEchoWaitTimeoutMs]

/-- C10: `record_packet_received(size, 0)` (the receiver-side path) leaves
the RTT sum/count/min/max, the last RTT, the jitter sum/count, the anomaly
log — and likewise the send counters, the out-of-order count, the bandwidth
samples and the thresholds — unchanged; it only increments
`packets_received`, adds `size` to `bytes_received` and to the bandwidth
partial accumulator, and initializes the start instant (with its associated
bandwidth-sample bookkeeping) when it was unset. -/
theorem c10_receiver_path_frame_effect (m : TestMetrics) (size now : Nat) :
    (m.record_packet_received size 0 now).total_rtt_micros =
        m.total_rtt_micros ∧
    (m.record_packet_received size 0 now).rtt_count = m.rtt_count ∧
    (m.record_packet_received size 0 now).min_rtt_micros = m.min_rtt_micros ∧
    (m.record_packet_received size 0 now).max_rtt_micros = m.max_rtt_micros ∧
    (m.record_packet_received size 0 now).last_rtt_micros =
        m.last_rtt_micros ∧
    (m.record_packet_received size 0 now).inter_arrival_jitter_micros_sum =
        m.inter_arrival_jitter_micros_sum ∧
    (m.record_packet_received size 0 now).jitter_count = m.jitter_count ∧
    (m.record_packet_received size 0 now).anomalies = m.anomalies ∧
    (m.record_packet_received size 0 now).packets_sent = m.packets_sent ∧
    (m.record_packet_received size 0 now).bytes_sent = m.bytes_sent ∧
    (m.record_packet_received size 0 now).out_of_order_count =
        m.out_of_order_count ∧
    (m.record_packet_received size 0 now).bandwidth_samples =
        m.bandwidth_samples ∧
    (m.record_packet_received size 0 now).latency_spike_threshold_micros =
        m.latency_spike_threshold_micros ∧
    (m.record_packet_received size 0 now).jitter_spike_threshold_micros =
        m.jitter_spike_threshold_micros ∧
    (m.record_packet_received size 0 now).packets_received =
        m.packets_received + 1 ∧
    (m.record_packet_received size 0 now).bytes_received =
        m.bytes_received + size ∧
    (m.record_packet_received size 0 now).bytes_since_last_bandwidth_sample =
      (if m.test_start_time.isSome
       then m.bytes_since_last_bandwidth_sample else 0) + size ∧
    (m.record_packet_received size 0 now).test_start_time =
        some (m.test_start_time.getD now) ∧
    (m.record_packet_received size 0 now).last_bandwidth_sample_time_ms =
      (if m.test_start_time.isSome
       then m.last_bandwidth_sample_time_ms else some 0) := by
  rcases h : m.test_start_time with _ | st <;>
    simp [TestMetrics.record_packet_received, TestMetrics.init_start_time, h]

/-- `record_packet_received` never touches the out-of-order counter. -/
theorem record_packet_received_out_of_order_count (m : TestMetrics)
    (size_bytes rtt_micros now : Nat) :
    (m.record_packet_received size_bytes rtt_micros now).out_of_order_count =
      m.out_of_order_count := by
  unfold TestMetrics.record_packet_received TestMetrics.record_jitter_value
    TestMetrics.init_start_time
  dsimp only
  repeat' split <;> try rfl

/-- C3 counterexample: at `current = 1073741823` and `highest = 4000000000`
the claim's wrap-around window `current < 2³²/4 ∧ highest > 3·2³²/4` holds,
so per the claim no out-of-order event may be recorded; the code's window
uses `u32::MAX / 4 = 1073741823` as a strict bound, so it does record one
(the out-of-order counter is incremented). -/
theorem c3_udp_out_of_order_counterexample :
    ((udpReceiveStep TestMetrics.new 0 100 (some 4000000000)
        ⟨⟨1073741823, 0, PacketType.Data⟩, []⟩).1.out_of_order_count =
      TestMetrics.new.out_of_order_count + 1) ∧
    (1073741823 : Nat) < 4000000000 ∧
    (1073741823 : Nat) < 2 ^ 32 / 4 ∧
    (4000000000 : Nat) > 3 * 2 ^ 32 / 4 := by
  refine ⟨?_, by norm_num, by norm_num, by norm_num⟩
  decide

/-- C3 (amended): with a highest-seen value `highest` present, handling a
decoded packet with sequence `current` increments the out-of-order counter
exactly when `current < highest` and not
(`current < 1073741823 ∧ highest > 1073741823`) — the code's thresholds are
`u32::MAX / 4` and `(u32::MAX * 3 mod 2³²) / 4`, both equal to
`1073741823`, not the claim's `2³²/4` and `3·2³²/4` — and afterwards the
highest-seen value is `max(highest, current)`. -/
theorem c3_udp_out_of_order_amended (m : TestMetrics) (now len highest : Nat)
    (p : CustomPacket) :
    ((udpReceiveStep m now len (some highest) p).1.out_of_order_count =
        m.out_of_order_count + 1 ↔
      (p.header.sequence_number < highest ∧
        ¬(p.header.sequence_number < 1073741823 ∧ highest > 1073741823))) ∧
    (udpReceiveStep m now len (some highest) p).2.1 =
      some (max highest p.header.sequence_number) := by
  have hwrap : isLikelyWrap p.header.sequence_number highest ↔
      p.header.sequence_number < 1073741823 ∧ highest > 1073741823 := by
    unfold isLikelyWrap u32Max
    norm_num
  have hrec := record_packet_received_out_of_order_count m len 0 now
  unfold udpReceiveStep
  dsimp only
  refine ⟨?_, rfl⟩
  by_cases hc : p.header.sequence_number < highest ∧
      ¬ isLikelyWrap p.header.sequence_number highest
  · rw [if_pos hc]
    dsimp only
    rw [hrec]
    simp only [true_iff, hwrap] at hc ⊢
    simp [hc]
  · rw [if_neg hc]
    rw [hrec]
    simp only [hwrap] at hc
    simp only [Nat.self_eq_add_right, OfNat.ofNat_ne_zero, false_iff]
    omega

/-- The TCP receive loop's only error outcome is the oversize protocol
error: for any fuel, capacity, buffer and stream it either closes cleanly
or reports `serializationError`. -/
theorem tcpReceiveLoopFuel_ok_or_oversize (now fuel : Nat) :
    ∀ (cap bufLen : Nat) (stream : List Nat) (m : TestMetrics),
      (∃ m2, tcpReceiveLoopFuel now fuel cap bufLen stream m =
        Except.ok m2) ∨
      tcpReceiveLoopFuel now fuel cap bufLen stream m =
        Except.error NetworkError.serializationError := by
  induction fuel with
  | zero =>
    intro cap bufLen stream m
    exact Or.inl ⟨m, rfl⟩
  | succ fuel ih =>
    intro cap bufLen stream m
    simp only [tcpReceiveLoopFuel]
    split
    · exact Or.inl ⟨m, rfl⟩
    · split
      · exact ih _ _ _ _
      · split
        · exact Or.inr rfl
        · split
          · exact Or.inl ⟨m, rfl⟩
          · exact ih _ _ _ _

/-- C4 counterexample: the stream `[0, 0, 0, 5]` declares a 5-byte frame
body and then ends, so end-of-stream is reached while reading the body; the
loop terminates with a success result (`break` → `Ok`), not with the error
the claim requires. -/
theorem c4_body_eof_counterexample :
    tcpReceiveLoop 0 (tcpInitialCapacity TestConfig.default) 0 [0, 0, 0, 5]
        TestMetrics.new = Except.ok TestMetrics.new ∧
    natFromBE [0, 0, 0, 5] = 5 ∧
    (5 : Nat) ≠ 0 :=
  ⟨rfl, rfl, by decide⟩

/-- C4 (amended): end-of-stream never makes the TCP receive loop fail —
both an EOF while reading the 4-byte length prefix and an EOF while reading
the frame body terminate the loop with a success result (the latter after
logging a premature close); the loop's only error outcome is the
excessive-length protocol error. -/
theorem c4_eof_clean_close_amended (now cap bufLen : Nat)
    (stream : List Nat) (m : TestMetrics) :
    (∃ m2, tcpReceiveLoop now cap bufLen stream m = Except.ok m2) ∨
    tcpReceiveLoop now cap bufLen stream m =
      Except.error NetworkError.serializationError :=
  tcpReceiveLoopFuel_ok_or_oversize now stream.length cap bufLen stream m

/-- C6 counterexample: with a configured packet size of 11 MiB the receive
buffer's capacity is 22 MiB, so a frame declaring 10 MiB + 1 bytes
(prefix `[0, 160, 0, 1]`) never reaches the 10 MiB check — the loop accepts
the length and then closes cleanly at the missing body instead of rejecting
the frame as a protocol error. -/
theorem c6_oversize_frame_counterexample :
    tcpReceiveLoop 0
        (tcpInitialCapacity
          { TestConfig.default with packet_size_bytes := 11534336 }) 0
        [0, 160, 0, 1] TestMetrics.new = Except.ok TestMetrics.new ∧
    natFromBE [0, 160, 0, 1] = 10485761 ∧
    (10485761 : Nat) > tcpMaxFrameLen :=
  ⟨rfl, rfl, by decide⟩

/-- C6 (amended): an incoming frame whose declared length exceeds 10 MiB is
rejected as a protocol error (closing the connection) only when that length
also exceeds the receive buffer's capacity; the capacity starts at
`2 · max(packet_size_bytes, 1024)`, so the rejection is not independent of
the configured packet size. -/
theorem c6_oversize_rejected_amended (now cap bufLen : Nat)
    (m : TestMetrics) (rest : List Nat) (L : Nat) (h32 : L < 2 ^ 32)
    (hmax : L > tcpMaxFrameLen) (hcap : L > cap) :
    tcpReceiveLoop now cap bufLen (natToBE 4 L ++ rest) m =
      Except.error NetworkError.serializationError := by
  have hL : natFromBE (natToBE 4 L) = L :=
    natFromBE_natToBE 4 L (by norm_num at h32 ⊢; omega)
  have hlen : (natToBE 4 L ++ rest).length = rest.length + 4 := by
    simp [natToBE_length]
    omega
  have hL0 : ¬ L = 0 := by
    unfold tcpMaxFrameLen at hmax
    omega
  unfold tcpReceiveLoop
  rw [hlen]
  simp only [tcpReceiveLoopFuel, takeExact_append _ _ _ (natToBE_length 4 L),
    hL]
  rw [if_neg hL0, if_pos hcap, if_pos hmax]

/-- Witness for C6 (amended): a frame declaring `u32::MAX` bytes against the
default 2 KiB buffer capacity is rejected with the protocol error. -/
theorem c6_oversize_rejected_amended_witness :
    ((4294967295 : Nat) < 2 ^ 32 ∧
      (4294967295 : Nat) > tcpMaxFrameLen ∧
      (4294967295 : Nat) > tcpInitialCapacity TestConfig.default) ∧
    tcpReceiveLoop 0 (tcpInitialCapacity TestConfig.default) 0
        (natToBE 4 4294967295 ++ []) TestMetrics.new =
      Except.error NetworkError.serializationError :=
  ⟨by refine ⟨by norm_num, by decide, by decide⟩,
   c6_oversize_rejected_amended 0 (tcpInitialCapacity TestConfig.default) 0
     TestMetrics.new [] 4294967295 (by norm_num) (by decide) (by decide)⟩

/-- The two metrics states agree on the four RTT-statistics fields. -/
def RttFieldsEq (m1 m2 : TestMetrics) : Prop :=
  m1.rtt_count = m2.rtt_count ∧
  m1.total_rtt_micros = m2.total_rtt_micros ∧
  m1.min_rtt_micros = m2.min_rtt_micros ∧
  m1.max_rtt_micros = m2.max_rtt_micros

/-- Invariant tying the RTT extremes to the RTT sum: either no RTT sample
has been recorded and the statistics are in their initial state, or the
min/max are present and bound the sum from below and above. -/
def RttInv (m : TestMetrics) : Prop :=
  (m.rtt_count = 0 ∧ m.min_rtt_micros = none ∧ m.max_rtt_micros = none ∧
    m.total_rtt_micros = 0) ∨
  (1 ≤ m.rtt_count ∧ ∃ mn mx, m.min_rtt_micros = some mn ∧
    m.max_rtt_micros = some mx ∧ mn * m.rtt_count ≤ m.total_rtt_micros ∧
    m.total_rtt_micros ≤ mx * m.rtt_count)

theorem rttInv_of_fieldsEq (m1 m2 : TestMetrics) (heq : RttFieldsEq m1 m2)
    (h : RttInv m1) : RttInv m2 := by
  obtain ⟨e1, e2, e3, e4⟩ := heq
  unfold RttInv at h ⊢
  rw [← e1, ← e2, ← e3, ← e4]
  exact h

theorem init_start_time_rttFieldsEq (m : TestMetrics) (now : Nat) :
    RttFieldsEq m (m.init_start_time now) := by
  unfold TestMetrics.init_start_time
  split <;> exact ⟨rfl, rfl, rfl, rfl⟩

theorem record_packet_sent_rttFieldsEq (m : TestMetrics) (s now : Nat) :
    RttFieldsEq m (m.record_packet_sent s now) := by
  unfold TestMetrics.record_packet_sent TestMetrics.init_start_time
  dsimp only
  split <;> exact ⟨rfl, rfl, rfl, rfl⟩

theorem record_jitter_value_rttFieldsEq (m : TestMetrics) (v now : Nat) :
    RttFieldsEq m (m.record_jitter_value v now) := by
  unfold TestMetrics.record_jitter_value TestMetrics.init_start_time
  dsimp only
  (repeat' split) <;> exact ⟨rfl, rfl, rfl, rfl⟩

theorem take_bandwidth_sample_rttFieldsEq (m : TestMetrics) (t now : Nat) :
    RttFieldsEq m (m.take_bandwidth_sample t now) := by
  unfold TestMetrics.take_bandwidth_sample TestMetrics.init_start_time
  dsimp only
  (repeat' split) <;> exact ⟨rfl, rfl, rfl, rfl⟩

theorem record_packet_received_zero_rttFieldsEq (m : TestMetrics)
    (s now : Nat) : RttFieldsEq m (m.record_packet_received s 0 now) := by
  unfold TestMetrics.record_packet_received TestMetrics.init_start_time
  dsimp only
  rw [if_neg (by omega : ¬ (0 : Nat) > 0)]
  split <;> exact ⟨rfl, rfl, rfl, rfl⟩

/-- With a positive RTT sample, `record_packet_received` adds the sample to
the sum, increments the count, and folds the sample into the min/max. -/
theorem record_packet_received_pos_rtt_fields (m : TestMetrics)
    (s rtt now : Nat) (h : 0 < rtt) :
    (m.record_packet_received s rtt now).rtt_count = m.rtt_count + 1 ∧
    (m.record_packet_received s rtt now).total_rtt_micros =
      m.total_rtt_micros + rtt ∧
    (m.record_packet_received s rtt now).min_rtt_micros =
      some (m.min_rtt_micros.elim rtt (min · rtt)) ∧
    (m.record_packet_received s rtt now).max_rtt_micros =
      some (m.max_rtt_micros.elim rtt (max · rtt)) := by
  rcases hst : m.test_start_time with _ | st <;>
    rcases hlast : m.last_rtt_micros with _ | lr <;>
      rcases hlat : m.latency_spike_threshold_micros with _ | lat <;>
        rcases hjit : m.jitter_spike_threshold_micros with _ | jit <;>
          (simp only [TestMetrics.record_packet_received,
             TestMetrics.record_jitter_value, TestMetrics.init_start_time,
             hst, hlast, hlat, hjit, gt_iff_lt, h, Option.isNone_none,
             Option.isNone_some, Bool.false_eq_true, if_true, if_false,
             ite_true, ite_false, Option.elim]
           (repeat' split) <;> simp)

theorem rttInv_apply (op : MetricsOp) (m : TestMetrics) (h : RttInv m) :
    RttInv (op.apply m) := by
  cases op with
  | sent s now =>
    exact rttInv_of_fieldsEq _ _ (record_packet_sent_rttFieldsEq m s now) h
  | jitterValue v now =>
    exact rttInv_of_fieldsEq _ _ (record_jitter_value_rttFieldsEq m v now) h
  | bandwidthSample t now =>
    exact rttInv_of_fieldsEq _ _ (take_bandwidth_sample_rttFieldsEq m t now) h
  | received s rtt now =>
    rcases Nat.eq_zero_or_pos rtt with hr | hr
    · subst hr
      exact rttInv_of_fieldsEq _ _
        (record_packet_received_zero_rttFieldsEq m s now) h
    · obtain ⟨e1, e2, e3, e4⟩ :=
        record_packet_received_pos_rtt_fields m s rtt now hr
      unfold MetricsOp.apply
      rcases h with ⟨h0, hmn, hmx, ht⟩ | ⟨h1, mn, mx, hmn, hmx, hlo, hhi⟩
      · refine Or.inr ⟨by rw [e1]; omega, rtt, rtt, ?_, ?_, ?_, ?_⟩
        · rw [e3, hmn]; rfl
        · rw [e4, hmx]; rfl
        · rw [e1, e2, h0, ht]; omega
        · rw [e1, e2, h0, ht]; omega
      · refine Or.inr ⟨by rw [e1]; omega, min mn rtt, max mx rtt,
          ?_, ?_, ?_, ?_⟩
        · rw [e3, hmn]; rfl
        · rw [e4, hmx]; rfl
        · rw [e1, e2]
          have hb1 : min mn rtt ≤ mn := Nat.min_le_left mn rtt
          have hb2 : min mn rtt ≤ rtt := Nat.min_le_right mn rtt
          calc min mn rtt * (m.rtt_count + 1)
              = min mn rtt * m.rtt_count + min mn rtt := by ring
            _ ≤ mn * m.rtt_count + rtt :=
                Nat.add_le_add (Nat.mul_le_mul_right _ hb1) hb2
            _ ≤ m.total_rtt_micros + rtt := Nat.add_le_add_right hlo rtt
        · rw [e1, e2]
          have hb1 : mx ≤ max mx rtt := Nat.le_max_left mx rtt
          have hb2 : rtt ≤ max mx rtt := Nat.le_max_right mx rtt
          calc m.total_rtt_micros + rtt
              ≤ mx * m.rtt_count + rtt := Nat.add_le_add_right hhi rtt
            _ ≤ max mx rtt * m.rtt_count + max mx rtt :=
                Nat.add_le_add (Nat.mul_le_mul_right _ hb1) hb2
            _ = max mx rtt * (m.rtt_count + 1) := by ring

theorem rttInv_applyOps (ops : List MetricsOp) :
    ∀ m : TestMetrics, RttInv m → RttInv (applyOps m ops) := by
  induction ops with
  | nil => intro m h; exact h
  | cons op ops ih =>
    intro m h
    exact ih _ (rttInv_apply op m h)

/-- C9: after any sequence of metrics operations starting from the empty
state, once at least one RTT sample is recorded the minimum RTT is at most
the average RTT, which is at most the maximum RTT. -/
theorem c9_min_avg_max_rtt (ops : List MetricsOp)
    (h : 1 ≤ (applyOps TestMetrics.new ops).rtt_count) :
    ∃ mn mx a,
      (applyOps TestMetrics.new ops).min_rtt_micros = some mn ∧
      (applyOps TestMetrics.new ops).max_rtt_micros = some mx ∧
      (applyOps TestMetrics.new ops).average_rtt_micros = some a ∧
      (mn : ℚ) ≤ a ∧ a ≤ (mx : ℚ) := by
  have hinv : RttInv (applyOps TestMetrics.new ops) :=
    rttInv_applyOps ops TestMetrics.new
      (Or.inl ⟨rfl, rfl, rfl, rfl⟩)
  rcases hinv with ⟨h0, -⟩ | ⟨-, mn, mx, hmn, hmx, hlo, hhi⟩
  · omega
  · set mm := applyOps TestMetrics.new ops with hmm
    have hc : (0 : ℚ) < (mm.rtt_count : ℚ) := by
      exact_mod_cast Nat.lt_of_lt_of_le Nat.zero_lt_one h
    refine ⟨mn, mx, (mm.total_rtt_micros : ℚ) / (mm.rtt_count : ℚ),
      hmn, hmx, ?_, ?_, ?_⟩
    · unfold TestMetrics.average_rtt_micros
      rw [if_neg (by omega)]
    · rw [le_div_iff₀ hc]
      exact_mod_cast hlo
    · rw [div_le_iff₀ hc]
      exact_mod_cast hhi

/-- Witness for C9: a single received packet with a 10 ms RTT. -/
theorem c9_min_avg_max_rtt_witness :
    1 ≤ (applyOps TestMetrics.new [MetricsOp.received 100 10000 0]).rtt_count ∧
    ∃ mn mx a,
      (applyOps TestMetrics.new
        [MetricsOp.received 100 10000 0]).min_rtt_micros = some mn ∧
      (applyOps TestMetrics.new
        [MetricsOp.received 100 10000 0]).max_rtt_micros = some mx ∧
      (applyOps TestMetrics.new
        [MetricsOp.received 100 10000 0]).average_rtt_micros = some a ∧
      (mn : ℚ) ≤ a ∧ a ≤ (mx : ℚ) :=
  ⟨by decide, c9_min_avg_max_rtt [MetricsOp.received 100 10000 0] (by decide)⟩

end Netstats
